import Mathlib

set_option maxRecDepth 100000

/-!
Verification of the datamatrix renderer
(`pybrasil/codigo_barras/datamatrix/renderer.py`).

The Python class `DataMatrixRenderer` is shallowly embedded: its mutable
state becomes a structure, the in-place mutation steps (`add_border`,
`add_handles`) become pure transformers, and the encoders (`get_buffer`,
`get_ascii`, `get_dxf`) become pure functions.  Python runtime errors
(IndexError, ZeroDivisionError, the TypeError from the partial `pixel` /
`symbol` helpers) are modelled with `Except` / `Option`.  Text is modelled
as `List Char`, byte strings as `List Nat`.
-/

/-- A grid: a list of rows, each row a list of Python-int cells. -/
abbrev Grid := List (List Nat)

/-- Runtime errors the constructor can raise in Python. -/
inductive PyError where
  | indexError
  | zeroDivision
deriving DecidableEq

/-- State of the Python `DataMatrixRenderer` object. -/
@[ext] structure DataMatrixRenderer where
  width : Nat
  height : Nat
  regions : Nat
  region_size : Nat
  quiet_zone : Nat
  matrix : Grid
deriving DecidableEq

namespace DataMatrixRenderer

/-- Row `y` of a grid (`[]` when out of range). -/
def rowAt (m : Grid) (y : Nat) : List Nat := m.getD y []

/-- Source `put_cell`: `self.matrix[posy][posx] = colour`.  `List.set` is a
no-op out of range; in Python that case raises, and the checked constructor
`init` below rules it out before calling the transformer. -/
def put_cell (r : DataMatrixRenderer) (posx posy : Nat) (colour : Nat) : DataMatrixRenderer :=
  { r with matrix := r.matrix.set posy ((rowAt r.matrix posy).set posx colour) }

/-- One output row of `add_border`: left gap `[colour]*(a_gap+quiet_zone)`,
then for each region index `i` the slice `row[i*region_size:(i+1)*region_size]`
preceded (for `i > 0`) by the `[colour]*(a_gap*2)` seam, then the right gap.
`a_gap = 1` as in the source. -/
def border_row (row : List Nat) (regions region_size quiet_zone colour : Nat) : List Nat :=
  List.replicate (1 + quiet_zone) colour
    ++ ((List.range regions).map (fun i =>
          (if 0 < i then List.replicate 2 colour else [])
            ++ (row.drop (i * region_size)).take region_size)).flatten
    ++ List.replicate (1 + quiet_zone) colour

/-- The `for row_n, row in enumerate(self.matrix)` loop of `add_border`:
before row `row_n` (when `row_n > 0` and `row_n % region_size == 0`) two full
solid rows of the already-updated width are inserted. -/
def border_body (rows : Grid) (row_n regions region_size quiet_zone colour newWidth : Nat) : Grid :=
  match rows with
  | [] => []
  | row :: rest =>
      (if 0 < row_n ∧ row_n % region_size = 0 then
          List.replicate 2 (List.replicate newWidth colour)
        else [])
        ++ border_row row regions region_size quiet_zone colour
          :: border_body rest (row_n + 1) regions region_size quiet_zone colour newWidth

/-- Source `add_border`: updates `width`/`height` by
`a_gap*2 + quiet_zone*2 + (regions-1)*a_gap*2` (`a_gap = 1`) and rebuilds the
matrix with `a_gap+quiet_zone` solid rows above and below the body. -/
def add_border (r : DataMatrixRenderer) (colour : Nat) : DataMatrixRenderer :=
  let width := r.width + 2 + r.quiet_zone * 2 + (r.regions - 1) * 2
  let height := r.height + 2 + r.quiet_zone * 2 + (r.regions - 1) * 2
  let cap := List.replicate (1 + r.quiet_zone) (List.replicate width colour)
  { r with
    width := width
    height := height
    matrix := cap ++ border_body r.matrix 0 r.regions r.region_size r.quiet_zone colour width ++ cap }

/-- The cells stamped for one region in `add_handles`, in source order:
bottom solid border, left solid border, top broken border (step 2), right
broken border (descending step 2 from `y_max`, exclusive of `y_origin`). -/
def region_cells (x_index y_index region_size quiet_zone : Nat) : List (Nat × Nat) :=
  let x_origin := x_index * (region_size + 2) + quiet_zone
  let y_origin := y_index * (region_size + 2) + quiet_zone
  let x_max := x_origin + region_size + 1
  let y_max := y_origin + region_size + 1
  (List.range' x_origin (x_max - x_origin)).map (fun posx => (posx, y_max))
    ++ (List.range' y_origin (y_max - y_origin)).map (fun posy => (x_origin, posy))
    ++ (List.range' x_origin ((x_max - x_origin + 1) / 2) 2).map (fun i => (i, y_origin))
    ++ (List.range ((y_max - y_origin + 1) / 2)).map (fun k => (x_max, y_max - 2 * k))

/-- All cells visited by the nested `for x_index`/`for y_index` loops of
`add_handles`, in source order. -/
def handle_cells (regions region_size quiet_zone : Nat) : List (Nat × Nat) :=
  ((List.range regions).map (fun x_index =>
    ((List.range regions).map (fun y_index =>
      region_cells x_index y_index region_size quiet_zone)).flatten)).flatten

/-- Fold `put_cell (colour := 1)` over a list of positions. -/
def write_all (r : DataMatrixRenderer) (ps : List (Nat × Nat)) : DataMatrixRenderer :=
  ps.foldl (fun s p => put_cell s p.1 p.2 1) r

/-- Source `add_handles`: stamp value 1 at every handle cell. -/
def add_handles (r : DataMatrixRenderer) : DataMatrixRenderer :=
  write_all r (handle_cells r.regions r.region_size r.quiet_zone)

/-- Bounds check for a `put_cell` target: Python raises IndexError when the
(non-negative) row or column index is out of range. -/
def cell_in_range (m : Grid) (p : Nat × Nat) : Bool :=
  p.2 < m.length && p.1 < (rowAt m p.2).length

/-- Source `__init__`.  `len(matrix[0])` raises IndexError on an empty list;
`self.width//regions` raises ZeroDivisionError for `regions == 0`;
`row_n % self.region_size` in `add_border` raises ZeroDivisionError when
`region_size == 0` and some `row_n > 0` exists; an out-of-range `put_cell`
in `add_handles` raises IndexError (`put_cell` never changes the shape, so
checking all handle cells against the bordered matrix is equivalent). -/
def init (matrix : Grid) (regions : Nat) : Except PyError DataMatrixRenderer :=
  match matrix with
  | [] => .error .indexError
  | row0 :: _ =>
      if regions = 0 then .error .zeroDivision
      else
        let r0 : DataMatrixRenderer :=
          { width := matrix.length
            height := row0.length
            regions := regions
            region_size := matrix.length / regions
            quiet_zone := 0
            matrix := matrix }
        if r0.region_size = 0 ∧ 2 ≤ matrix.length then .error .zeroDivision
        else
          let r1 := add_border r0 0
          if (handle_cells r1.regions r1.region_size r1.quiet_zone).all (cell_in_range r1.matrix) then
            .ok (add_handles r1)
          else .error .indexError

/-- Evaluate each element left to right, failing as soon as one fails; this
models a Python list comprehension whose element expression may raise. -/
def optMap (f : α → Option β) : List α → Option (List β)
  | [] => some []
  | a :: l =>
      match f a, optMap f l with
      | some b, some bs => some (b :: bs)
      | _, _ => none

/-- Source `pixel` helper in `get_buffer`: 0 maps to the byte 0xff, 1 to
0x00, anything else falls through and yields `None`. -/
def pixel (value : Nat) : Option Nat :=
  if value = 0 then some 255 else if value = 1 then some 0 else none

/-- Source `get_buffer`: rows are traversed in reverse, each cell byte is
repeated `cellsize` times horizontally and each row buffer `cellsize` times
vertically.  A `None` from `pixel` makes `pixel(cell) * cellsize` raise. -/
def get_buffer (r : DataMatrixRenderer) (cellsize : Nat) : Option (List Nat) :=
  (optMap (fun row =>
      (optMap (fun cell => (pixel cell).map (List.replicate cellsize)) row).map
        (fun parts => (List.replicate cellsize parts.flatten).flatten))
    r.matrix.reverse).map List.flatten

/-- Source `symbol` helper in `get_ascii`: 0 maps to two spaces, 1 to two
letters X, anything else falls through and yields `None`. -/
def symbol (value : Nat) : Option (List Char) :=
  if value = 0 then some [' ', ' ']
  else if value = 1 then some ['X', 'X']
  else none

/-- Python `sep.flatten(strings)`. -/
def pyJoin (sep : List Char) : List (List Char) → List Char
  | [] => []
  | [s] => s
  | s :: rest => s ++ (sep ++ pyJoin sep rest)

/-- Source `get_ascii`: rows joined by a newline, one trailing newline. -/
def get_ascii (r : DataMatrixRenderer) : Option (List Char) :=
  (optMap (fun row => (optMap symbol row).map List.flatten) r.matrix).map
    (fun ls => pyJoin ['\n'] ls ++ ['\n'])

/-- Decimal digit characters, indexed by digit value. -/
def digitChar (d : Nat) : Char :=
  ['0', '1', '2', '3', '4', '5', '6', '7', '8', '9'].getD d '9'

/-- Digits of a natural number (fuel-structured so the kernel can reduce it;
`natChars` supplies sufficient fuel). -/
def natCharsAux : Nat → Nat → List Char
  | 0, _ => []
  | fuel + 1, n =>
      if n < 10 then [digitChar n]
      else natCharsAux fuel (n / 10) ++ [digitChar (n % 10)]

/-- Python `str` of a non-negative integer. -/
def natChars (n : Nat) : List Char := natCharsAux (n + 1) n

/-- Python `str` of an integer. -/
def intChars (i : Int) : List Char :=
  if i < 0 then '-' :: natChars i.natAbs else natChars i.toNat

/-- Source `coord`: `'\n'.flatten(map(str,(10+c, x, 20+c, y, 30+c, 0, '')))`. -/
def coord (x y : Int) (c : Nat) : List Char :=
  natChars (10 + c) ++ '\n' :: intChars x ++ '\n' :: natChars (20 + c) ++ '\n' :: intChars y
    ++ '\n' :: natChars (30 + c) ++ '\n' :: '0' :: ['\n']

/-- Source `solid`: one SOLID entity on layer barcode; `w` and `h` always
take their default value `cellsize` at the call site, so they are inlined. -/
def solid (cellsize x y : Int) : List Char :=
  ("0\nSOLID\n8\nbarcode\n").toList
    ++ coord x y 0 ++ coord (x + cellsize) y 1
    ++ coord x (y - cellsize) 2 ++ coord (x + cellsize) (y - cellsize) 3

/-- One row of the entity section: `solid(x*cellsize, (height-y)*cellsize)`
for every cell with `bool(val) != inverse`, `x` counting from 0. -/
def dxf_row (row : List Nat) (x : Nat) (ypos cellsize : Int) (inverse : Bool) : List Char :=
  match row with
  | [] => []
  | v :: rest =>
      (if ((v != 0) != inverse) then solid cellsize ((x : Int) * cellsize) ypos else [])
        ++ dxf_row rest (x + 1) ypos cellsize inverse

/-- The entity section rows, `y` counting from 0. -/
def dxf_rows (rows : Grid) (y height : Nat) (cellsize : Int) (inverse : Bool) : List Char :=
  match rows with
  | [] => []
  | row :: rest =>
      dxf_row row 0 (((height : Int) - (y : Int)) * cellsize) cellsize inverse
        ++ dxf_rows rest (y + 1) height cellsize inverse

/-- Source `get_dxf`: header (with `$INSUNITS` 4 for `units == "mm"`, else
0), entity section, end-of-file marker. -/
def get_dxf (r : DataMatrixRenderer) (cellsize : Int) (inverse : Bool) (units : List Char) : List Char :=
  ("0\nSECTION\n2\nHEADER\n9\n$ACADVER\n1\nAC1006\n9\n$INSUNITS\n70\n").toList
    ++ (if units = ['m', 'm'] then ['4', '\n'] else ['0', '\n'])
    ++ ("0\nENDSEC\n0\nSECTION\n2\nENTITIES\n").toList
    ++ dxf_rows r.matrix 0 r.height cellsize inverse
    ++ ("0\nENDSEC\n0\nEOF\n").toList

end DataMatrixRenderer

open DataMatrixRenderer

/-- All cells of a grid are binary. -/
abbrev cells01 (m : Grid) : Prop := ∀ v ∈ m.flatten, v = 0 ∨ v = 1

/-- The 10 by 10 all-zero matrix of the spec scenario. -/
def zeros10 : Grid := List.replicate 10 (List.replicate 10 0)

/-- Fallback renderer used only to destructure `Except` results of `init`. -/
def dummyRenderer : DataMatrixRenderer :=
  { width := 0, height := 0, regions := 0, region_size := 0, quiet_zone := 0, matrix := [] }

/-- The renderer constructed from the 10 by 10 all-zero matrix with
`regions = 2` (the spec scenario). -/
def ex10 : DataMatrixRenderer :=
  match init zeros10 2 with
  | .ok r => r
  | .error _ => dummyRenderer

/-- The renderer constructed from the 10 by 10 all-zero matrix with
`regions = 3` (3 does not divide 10). -/
def ex3 : DataMatrixRenderer :=
  match init zeros10 3 with
  | .ok r => r
  | .error _ => dummyRenderer

/-- A renderer wrapping a 1 by 1 single-foreground-cell grid directly (the
DXF spec scenario feeds the grid to the encoder as is). -/
def ex1 : DataMatrixRenderer :=
  { width := 1, height := 1, regions := 1, region_size := 1, quiet_zone := 0, matrix := [[1]] }

/-- A renderer wrapping the empty grid (no rows). -/
def rNil : DataMatrixRenderer :=
  { width := 0, height := 0, regions := 1, region_size := 0, quiet_zone := 0, matrix := [] }

/-- A renderer wrapping a single empty row. -/
def rOneEmpty : DataMatrixRenderer :=
  { width := 1, height := 0, regions := 1, region_size := 1, quiet_zone := 0, matrix := [[]] }

/-- A renderer wrapping a 1 by 1 grid holding the out-of-domain value 2. -/
def rBad : DataMatrixRenderer :=
  { width := 1, height := 1, regions := 1, region_size := 1, quiet_zone := 0, matrix := [[2]] }

/-- Total byte value of a binary cell (0 is white 0xff, 1 is black 0x00);
total companion of `pixel` on the binary domain. -/
def byte_of (v : Nat) : Nat := if v = 0 then 255 else 0

/-- Modelled from the spec claim: the expected raster buffer — grid rows in
reverse order, each row replicated `cellsize` times vertically, each cell
byte replicated `cellsize` times horizontally. -/
def buffer_spec (m : Grid) (cellsize : Nat) : List Nat :=
  (m.reverse.map (fun row =>
    (List.replicate cellsize
      ((row.map (fun v => List.replicate cellsize (byte_of v))).flatten)).flatten)).flatten

/-- Total two-character cell rendering; total companion of `symbol` on the
binary domain. -/
def symbolT (v : Nat) : List Char := if v = 0 then [' ', ' '] else ['X', 'X']

/-- Python `text.split(chr(10))`: always one more piece than newlines. -/
def splitOnNl : List Char → List (List Char)
  | [] => [[]]
  | c :: cs =>
      let r := splitOnNl cs
      if c = '\n' then [] :: r else (c :: r.headI) :: r.tail

/-- Modelled from the spec claim: parse one ascii line back into cells by
character pairs (two spaces is 0, two letters X is 1). -/
def parsePairs : List Char → Option (List Nat)
  | [] => some []
  | a :: b :: rest =>
      if a = ' ' ∧ b = ' ' then (parsePairs rest).map (fun l => 0 :: l)
      else if a = 'X' ∧ b = 'X' then (parsePairs rest).map (fun l => 1 :: l)
      else none
  | [_] => none

/-- Modelled from the spec claim: split the text into lines (the trailing
newline contributes one final empty piece, which is dropped) and parse each
line by character pairs. -/
def parseAscii (t : List Char) : Option Grid :=
  optMap parsePairs (splitOnNl t).dropLast

namespace DataMatrixRenderer

/-- The cell value at column `x` of row `y` (0 when out of range; both grids
compared with it are always given equal shapes first). -/
def cellAt (m : Grid) (x y : Nat) : Nat := (rowAt m y).getD x 0

theorem rowAt_set_ne (m : Grid) (row : List Nat) (y i : Nat) (h : y ≠ i) :
    rowAt (m.set y row) i = rowAt m i := by
  simp [rowAt, List.getElem?_set_ne h]

theorem rowAt_set_self (m : Grid) (row : List Nat) (y : Nat) (h : y < m.length) :
    rowAt (m.set y row) y = row := by
  simp [rowAt, List.getElem?_set_self h]

theorem put_cell_matrix (r : DataMatrixRenderer) (x y c : Nat) :
    (put_cell r x y c).matrix = r.matrix.set y ((rowAt r.matrix y).set x c) := rfl

theorem put_cell_width (r : DataMatrixRenderer) (x y c : Nat) :
    (put_cell r x y c).width = r.width := rfl

theorem put_cell_height (r : DataMatrixRenderer) (x y c : Nat) :
    (put_cell r x y c).height = r.height := rfl

theorem put_cell_regions (r : DataMatrixRenderer) (x y c : Nat) :
    (put_cell r x y c).regions = r.regions := rfl

theorem put_cell_region_size (r : DataMatrixRenderer) (x y c : Nat) :
    (put_cell r x y c).region_size = r.region_size := rfl

theorem put_cell_quiet_zone (r : DataMatrixRenderer) (x y c : Nat) :
    (put_cell r x y c).quiet_zone = r.quiet_zone := rfl

theorem length_put_cell (r : DataMatrixRenderer) (x y c : Nat) :
    (put_cell r x y c).matrix.length = r.matrix.length := by
  simp [put_cell]

theorem row_length_put_cell (r : DataMatrixRenderer) (x y c i : Nat) :
    (rowAt (put_cell r x y c).matrix i).length = (rowAt r.matrix i).length := by
  rw [put_cell_matrix]
  rcases eq_or_ne y i with rfl | hne
  · rcases Nat.lt_or_ge y r.matrix.length with h | h
    · rw [rowAt_set_self _ _ _ h, List.length_set]
    · rw [List.set_eq_of_length_le h]
  · rw [rowAt_set_ne _ _ _ _ hne]

theorem cell_in_range_put_cell (r : DataMatrixRenderer) (x y c : Nat) (p : Nat × Nat) :
    cell_in_range (put_cell r x y c).matrix p = cell_in_range r.matrix p := by
  simp only [cell_in_range, length_put_cell, row_length_put_cell]

theorem cellAt_put_cell_ne (r : DataMatrixRenderer) (c : Nat) (p q : Nat × Nat) (h : p ≠ q) :
    cellAt (put_cell r p.1 p.2 c).matrix q.1 q.2 = cellAt r.matrix q.1 q.2 := by
  rw [cellAt, cellAt, put_cell_matrix]
  rcases eq_or_ne p.2 q.2 with hy | hy
  · have hx : p.1 ≠ q.1 := fun hx => h (Prod.ext hx hy)
    rcases Nat.lt_or_ge q.2 r.matrix.length with hlt | hge
    · rw [hy, rowAt_set_self _ _ _ (hy ▸ hlt)]
      simp [List.getElem?_set_ne hx]
    · rw [List.set_eq_of_length_le (hy ▸ hge)]
  · rw [rowAt_set_ne _ _ _ _ hy]

theorem cellAt_put_cell_self (r : DataMatrixRenderer) (x y c : Nat)
    (h : cell_in_range r.matrix (x, y) = true) :
    cellAt (put_cell r x y c).matrix x y = c := by
  simp only [cell_in_range, Bool.and_eq_true, decide_eq_true_eq] at h
  obtain ⟨hy, hx⟩ := h
  rw [cellAt, put_cell_matrix, rowAt_set_self _ _ _ hy]
  simp [List.getElem?_set_self (by simpa using hx)]

theorem cellAt_put_cell_oor (r : DataMatrixRenderer) (x y c : Nat)
    (h : ¬ cell_in_range r.matrix (x, y) = true) :
    cellAt (put_cell r x y c).matrix x y = cellAt r.matrix x y := by
  simp only [cell_in_range, Bool.and_eq_true, decide_eq_true_eq, not_and_or] at h
  rw [cellAt, cellAt, put_cell_matrix]
  rcases h with h | h
  · rw [List.set_eq_of_length_le (Nat.not_lt.mp h)]
  · rcases Nat.lt_or_ge y r.matrix.length with hlt | hge
    · rw [rowAt_set_self _ _ _ hlt]
      have h' : (rowAt r.matrix y).length ≤ x := Nat.not_lt.mp h
      rw [List.set_eq_of_length_le h']
    · rw [List.set_eq_of_length_le hge]

theorem write_all_cons (r : DataMatrixRenderer) (p : Nat × Nat) (ps : List (Nat × Nat)) :
    write_all r (p :: ps) = write_all (put_cell r p.1 p.2 1) ps := rfl

theorem write_all_width (r : DataMatrixRenderer) (ps : List (Nat × Nat)) :
    (write_all r ps).width = r.width := by
  induction ps generalizing r with
  | nil => rfl
  | cons p ps ih => rw [write_all_cons, ih, put_cell_width]

theorem write_all_height (r : DataMatrixRenderer) (ps : List (Nat × Nat)) :
    (write_all r ps).height = r.height := by
  induction ps generalizing r with
  | nil => rfl
  | cons p ps ih => rw [write_all_cons, ih, put_cell_height]

theorem write_all_regions (r : DataMatrixRenderer) (ps : List (Nat × Nat)) :
    (write_all r ps).regions = r.regions := by
  induction ps generalizing r with
  | nil => rfl
  | cons p ps ih => rw [write_all_cons, ih, put_cell_regions]

theorem write_all_region_size (r : DataMatrixRenderer) (ps : List (Nat × Nat)) :
    (write_all r ps).region_size = r.region_size := by
  induction ps generalizing r with
  | nil => rfl
  | cons p ps ih => rw [write_all_cons, ih, put_cell_region_size]

theorem write_all_quiet_zone (r : DataMatrixRenderer) (ps : List (Nat × Nat)) :
    (write_all r ps).quiet_zone = r.quiet_zone := by
  induction ps generalizing r with
  | nil => rfl
  | cons p ps ih => rw [write_all_cons, ih, put_cell_quiet_zone]

theorem length_write_all (r : DataMatrixRenderer) (ps : List (Nat × Nat)) :
    (write_all r ps).matrix.length = r.matrix.length := by
  induction ps generalizing r with
  | nil => rfl
  | cons p ps ih => rw [write_all_cons, ih, length_put_cell]

theorem row_length_write_all (r : DataMatrixRenderer) (ps : List (Nat × Nat)) (i : Nat) :
    (rowAt (write_all r ps).matrix i).length = (rowAt r.matrix i).length := by
  induction ps generalizing r with
  | nil => rfl
  | cons p ps ih =>
      have step : write_all r (p :: ps) = write_all (put_cell r p.1 p.2 1) ps := rfl
      rw [step, ih, row_length_put_cell]

theorem cell_in_range_write_all (r : DataMatrixRenderer) (ps : List (Nat × Nat)) (p : Nat × Nat) :
    cell_in_range (write_all r ps).matrix p = cell_in_range r.matrix p := by
  simp only [cell_in_range, length_write_all, row_length_write_all]

theorem cellAt_write_all (ps : List (Nat × Nat)) (r : DataMatrixRenderer) (x y : Nat) :
    cellAt (write_all r ps).matrix x y =
      if (x, y) ∈ ps ∧ cell_in_range r.matrix (x, y) = true then 1
      else cellAt r.matrix x y := by
  induction ps generalizing r with
  | nil => simp [write_all]
  | cons p ps ih =>
      rw [write_all_cons, ih, cell_in_range_put_cell]
      rcases eq_or_ne p (x, y) with heq | hne
      · subst heq
        by_cases hr : cell_in_range r.matrix (x, y) = true
        · have hself : cellAt (put_cell r x y 1).matrix x y = 1 :=
            cellAt_put_cell_self r x y 1 hr
          by_cases hm : (x, y) ∈ ps <;> simp [hm, hr, hself]
        · have hoor : cellAt (put_cell r x y 1).matrix x y = cellAt r.matrix x y :=
            cellAt_put_cell_oor r x y 1 hr
          by_cases hm : (x, y) ∈ ps <;> simp [hm, hr, hoor]
      · have hxy : cellAt (put_cell r p.1 p.2 1).matrix x y = cellAt r.matrix x y :=
          cellAt_put_cell_ne r 1 p (x, y) hne
        by_cases hm : (x, y) ∈ ps <;> simp [hxy, hm, List.mem_cons, hne.symm]

/-- Pointwise extensionality for grids. -/
theorem grid_ext {m1 m2 : Grid} (hlen : m1.length = m2.length)
    (hrow : ∀ y, (rowAt m1 y).length = (rowAt m2 y).length)
    (hcell : ∀ x y, cellAt m1 x y = cellAt m2 x y) : m1 = m2 := by
  apply List.ext_getElem?
  intro y
  rcases Nat.lt_or_ge y m1.length with hy | hy
  · have hy2 : y < m2.length := hlen ▸ hy
    have hr1 : rowAt m1 y = m1[y] := by simp [rowAt, List.getElem?_eq_getElem hy]
    have hr2 : rowAt m2 y = m2[y] := by simp [rowAt, List.getElem?_eq_getElem hy2]
    rw [List.getElem?_eq_getElem hy, List.getElem?_eq_getElem hy2]
    refine congrArg some (List.ext_getElem? fun x => ?_)
    have hrl : m1[y].length = m2[y].length := by rw [← hr1, ← hr2]; exact hrow y
    rcases Nat.lt_or_ge x m1[y].length with hx | hx
    · have hx2 : x < m2[y].length := hrl ▸ hx
      have hc := hcell x y
      rw [cellAt, cellAt, hr1, hr2] at hc
      have hval : m1[y][x] = m2[y][x] := by
        simpa [List.getD_eq_getElem?_getD, List.getElem?_eq_getElem hx,
          List.getElem?_eq_getElem hx2] using hc
      rw [List.getElem?_eq_getElem hx, List.getElem?_eq_getElem hx2, hval]
    · rw [List.getElem?_eq_none hx, List.getElem?_eq_none (hrl ▸ hx)]
  · rw [List.getElem?_eq_none hy, List.getElem?_eq_none (hlen ▸ hy)]

/-- Claim C8: re-running `add_handles` on an already stamped renderer changes
nothing, because every stamped cell is set to 1, never toggled. -/
theorem C8_add_handles_idempotent (r : DataMatrixRenderer) :
    add_handles (add_handles r) = add_handles r := by
  have hreg : (add_handles r).regions = r.regions := write_all_regions ..
  have hrs : (add_handles r).region_size = r.region_size := write_all_region_size ..
  have hqz : (add_handles r).quiet_zone = r.quiet_zone := write_all_quiet_zone ..
  have hL : add_handles (add_handles r) =
      write_all (add_handles r) (handle_cells r.regions r.region_size r.quiet_zone) := by
    rw [add_handles, hreg, hrs, hqz]
  rw [hL]
  set L := handle_cells r.regions r.region_size r.quiet_zone with hLdef
  have h1 : add_handles r = write_all r L := rfl
  ext1
  · rw [write_all_width, h1]
  · rw [write_all_height, h1]
  · rw [write_all_regions, h1]
  · rw [write_all_region_size, h1]
  · rw [write_all_quiet_zone, h1]
  · refine grid_ext ?_ ?_ ?_
    · rw [length_write_all]
    · intro y; rw [row_length_write_all]
    · intro x y
      rw [cellAt_write_all, h1, cellAt_write_all, cell_in_range_write_all]
      by_cases hc : (x, y) ∈ L ∧ cell_in_range r.matrix (x, y) = true <;> simp [hc]

theorem border_pieces_length (row : List Nat) (rs c : Nat) (regions k : Nat)
    (hk : k ≤ regions) (hrow : regions * rs ≤ row.length) :
    (((List.range k).map (fun i =>
        (if 0 < i then List.replicate 2 c else []) ++ (row.drop (i * rs)).take rs)).flatten).length
      = k * rs + 2 * (k - 1) := by
  induction k with
  | zero => simp
  | succ k ih =>
      rw [List.range_succ, List.map_append, List.flatten_append, List.length_append,
        ih (Nat.le_of_succ_le hk)]
      have hlen : ((row.drop (k * rs)).take rs).length = rs := by
        rw [List.length_take, List.length_drop]
        have hmul : (k + 1) * rs ≤ regions * rs := Nat.mul_le_mul_right rs hk
        rw [Nat.succ_mul] at hmul
        omega
      simp only [List.map_cons, List.map_nil, List.flatten_cons, List.flatten_nil,
        List.append_nil, List.length_append, hlen]
      rcases Nat.eq_zero_or_pos k with rfl | hk0
      · simp
      · rw [if_pos hk0, List.length_replicate, Nat.succ_mul k rs]
        omega

theorem border_row_length (row : List Nat) (regions rs qz c : Nat)
    (hreg : 1 ≤ regions) (hrow : regions * rs ≤ row.length) :
    (border_row row regions rs qz c).length = regions * rs + 2 * regions + 2 * qz := by
  rw [border_row]
  simp only [List.length_append, List.length_replicate]
  rw [border_pieces_length row rs c regions regions le_rfl hrow]
  omega

theorem border_body_length (rows : Grid) (regions rs qz c W : Nat) :
    ∀ row_n, (border_body rows row_n regions rs qz c W).length =
      rows.length + 2 * (List.range' row_n rows.length).countP
        (fun k => decide (0 < k) && decide (k % rs = 0)) := by
  induction rows with
  | nil => intro row_n; simp [border_body]
  | cons row rest ih =>
      intro row_n
      rw [border_body, List.length_append, List.length_cons, ih (row_n + 1),
        List.length_cons, List.range'_succ, List.countP_cons]
      by_cases h : 0 < row_n ∧ row_n % rs = 0
      · have hd : (decide (0 < row_n) && decide (row_n % rs = 0)) = true := by
          simp [h.1, h.2]
        rw [hd, if_pos h]
        simp only [List.length_replicate, if_true]
        omega
      · have hd : (decide (0 < row_n) && decide (row_n % rs = 0)) = false := by
          rcases Decidable.not_and_iff_or_not.mp h with h1 | h1 <;> simp [h1]
        rw [hd, if_neg h]
        simp only [List.length_nil, Bool.false_eq_true, if_false]
        omega

theorem count_block (a rs : Nat) (hrs : 1 ≤ rs) (ha : rs ∣ a) :
    (List.range' a rs).countP (fun k => decide (0 < k) && decide (k % rs = 0)) =
      if 0 < a then 1 else 0 := by
  rw [List.range'_eq_map_range, List.countP_map]
  have hmod : ∀ i, i < rs → (a + i) % rs = i := by
    intro i hi
    obtain ⟨t, rfl⟩ := ha
    rw [Nat.add_comm, Nat.add_mul_mod_self_left]
    exact Nat.mod_eq_of_lt hi
  rcases Nat.eq_zero_or_pos a with rfl | ha0
  · rw [if_neg (by omega)]
    apply List.countP_eq_zero.mpr
    intro i hi
    rw [List.mem_range] at hi
    simp only [Function.comp_apply, Bool.and_eq_true, decide_eq_true_eq, not_and]
    intro h0
    rw [hmod i hi]
    omega
  · rw [if_pos ha0]
    rw [List.countP_congr (q := fun i => decide (i = 0)) ?_]
    · obtain ⟨s, rfl⟩ : ∃ s, rs = s + 1 := ⟨rs - 1, by omega⟩
      rw [List.range_eq_range', List.range'_succ, List.countP_cons]
      have hz : (decide ((0 : Nat) = 0)) = true := by simp
      rw [hz]
      have hrest : (List.range' 1 s).countP (fun i => decide (i = 0)) = 0 := by
        apply List.countP_eq_zero.mpr
        intro i hi
        rw [List.mem_range'] at hi
        obtain ⟨j, hj, rfl⟩ := hi
        simp
      rw [hrest]
      simp
    · intro i hi
      rw [List.mem_range] at hi
      simp only [Function.comp_apply, Bool.and_eq_true, decide_eq_true_eq]
      constructor
      · rintro ⟨-, h2⟩
        rw [hmod i hi] at h2
        exact h2
      · rintro rfl
        exact ⟨by omega, by rw [hmod 0 hi]⟩

theorem count_gap_rows (regions rs : Nat) (hrs : 1 ≤ rs) :
    (List.range' 0 (regions * rs)).countP (fun k => decide (0 < k) && decide (k % rs = 0)) =
      regions - 1 := by
  induction regions with
  | zero => simp
  | succ m ih =>
      have h1 : (m + 1) * rs = rs + m * rs := by ring
      rw [h1, ← List.range'_append_1 0 (m * rs) rs, List.countP_append, ih,
        Nat.zero_add, count_block (m * rs) rs hrs (dvd_mul_left rs m)]
      rcases Nat.eq_zero_or_pos m with rfl | hm
      · simp
      · rw [if_pos (by positivity)]
        omega

theorem border_body_row_length (rows : Grid) (regions rs qz c W : Nat)
    (hreg : 1 ≤ regions) (hrow : ∀ row ∈ rows, regions * rs ≤ row.length) :
    ∀ row_n, ∀ out ∈ border_body rows row_n regions rs qz c W,
      out.length = W ∨ out.length = regions * rs + 2 * regions + 2 * qz := by
  induction rows with
  | nil => intro row_n out h; simp [border_body] at h
  | cons row rest ih =>
      intro row_n out h
      rw [border_body] at h
      rcases List.mem_append.mp h with h | h
      · by_cases hc : 0 < row_n ∧ row_n % rs = 0
        · rw [if_pos hc] at h
          rw [(List.eq_of_mem_replicate h : out = List.replicate W c)]
          exact Or.inl (List.length_replicate ..)
        · rw [if_neg hc] at h
          simp at h
      · rcases List.mem_cons.mp h with rfl | h
        · exact Or.inr
            (border_row_length row regions rs qz c hreg (hrow row (List.mem_cons_self row rest)))
        · exact ih (fun q hq => hrow q (List.mem_cons_of_mem _ hq)) (row_n + 1) out h

theorem add_border_regions (r : DataMatrixRenderer) (c : Nat) :
    (add_border r c).regions = r.regions := rfl

theorem add_border_region_size (r : DataMatrixRenderer) (c : Nat) :
    (add_border r c).region_size = r.region_size := rfl

theorem add_border_quiet_zone (r : DataMatrixRenderer) (c : Nat) :
    (add_border r c).quiet_zone = r.quiet_zone := rfl

theorem add_border_width (r : DataMatrixRenderer) (c : Nat) :
    (add_border r c).width = r.width + 2 + r.quiet_zone * 2 + (r.regions - 1) * 2 := rfl

theorem add_border_height (r : DataMatrixRenderer) (c : Nat) :
    (add_border r c).height = r.height + 2 + r.quiet_zone * 2 + (r.regions - 1) * 2 := rfl

theorem add_border_matrix (r : DataMatrixRenderer) (c : Nat) :
    (add_border r c).matrix =
      List.replicate (1 + r.quiet_zone) (List.replicate (add_border r c).width c)
        ++ border_body r.matrix 0 r.regions r.region_size r.quiet_zone c (add_border r c).width
        ++ List.replicate (1 + r.quiet_zone) (List.replicate (add_border r c).width c) := rfl

theorem rowAt_mem (m : Grid) (y : Nat) (h : y < m.length) : rowAt m y ∈ m := by
  have heq : rowAt m y = m[y] := by simp [rowAt, List.getElem?_eq_getElem h]
  rw [heq]
  exact List.getElem_mem h

theorem region_cells_bounds (regions rs qz : Nat) (xi yi : Nat)
    (hx : xi < regions) (hy : yi < regions) (p : Nat × Nat)
    (hp : p ∈ region_cells xi yi rs qz) :
    p.1 < regions * (rs + 2) + qz ∧ p.2 < regions * (rs + 2) + qz := by
  have hxb : xi * (rs + 2) + (rs + 2) ≤ regions * (rs + 2) := by
    have := Nat.mul_le_mul_right (rs + 2) (Nat.succ_le_of_lt hx)
    rwa [Nat.succ_mul] at this
  have hyb : yi * (rs + 2) + (rs + 2) ≤ regions * (rs + 2) := by
    have := Nat.mul_le_mul_right (rs + 2) (Nat.succ_le_of_lt hy)
    rwa [Nat.succ_mul] at this
  rw [region_cells] at hp
  rcases List.mem_append.mp hp with hp | hp
  · rcases List.mem_append.mp hp with hp | hp
    · rcases List.mem_append.mp hp with hp | hp
      · obtain ⟨posx, hin, rfl⟩ := List.mem_map.mp hp
        rw [List.mem_range'] at hin
        obtain ⟨i, hi, rfl⟩ := hin
        constructor <;> simp <;> omega
      · obtain ⟨posy, hin, rfl⟩ := List.mem_map.mp hp
        rw [List.mem_range'] at hin
        obtain ⟨i, hi, rfl⟩ := hin
        constructor <;> simp <;> omega
    · obtain ⟨i, hin, rfl⟩ := List.mem_map.mp hp
      rw [List.mem_range'] at hin
      obtain ⟨j, hj, rfl⟩ := hin
      constructor <;> simp <;> omega
  · obtain ⟨k, hin, rfl⟩ := List.mem_map.mp hp
    rw [List.mem_range] at hin
    constructor <;> simp <;> omega

theorem handle_cells_bounds (regions rs qz : Nat) (p : Nat × Nat)
    (hp : p ∈ handle_cells regions rs qz) :
    p.1 < regions * (rs + 2) + qz ∧ p.2 < regions * (rs + 2) + qz := by
  rw [handle_cells] at hp
  obtain ⟨l, hl, hpl⟩ := List.mem_flatten.mp hp
  obtain ⟨xi, hxi, rfl⟩ := List.mem_map.mp hl
  obtain ⟨l2, hl2, hpl2⟩ := List.mem_flatten.mp hpl
  obtain ⟨yi, hyi, rfl⟩ := List.mem_map.mp hl2
  rw [List.mem_range] at hxi hyi
  exact region_cells_bounds regions rs qz xi yi hxi hyi p hpl2

theorem write_all_forall_row_length (r : DataMatrixRenderer) (ps : List (Nat × Nat)) (W : Nat)
    (h : ∀ row ∈ r.matrix, row.length = W) :
    ∀ row ∈ (write_all r ps).matrix, row.length = W := by
  intro row hrow
  obtain ⟨i, hi, rfl⟩ := List.mem_iff_getElem.mp hrow
  have h1 : rowAt (write_all r ps).matrix i = (write_all r ps).matrix[i] := by
    simp [rowAt, List.getElem?_eq_getElem hi]
  rw [← h1, row_length_write_all]
  have hi' : i < r.matrix.length := by
    have := length_write_all r ps
    omega
  have h2 : rowAt r.matrix i = r.matrix[i] := by
    simp [rowAt, List.getElem?_eq_getElem hi']
  rw [h2]
  exact h (r.matrix[i]) (List.getElem_mem hi')

theorem add_border_spec (r0 : DataMatrixRenderer) (n regions rs : Nat)
    (hw : r0.width = n) (hh : r0.height = n)
    (hreg : r0.regions = regions) (hrs : r0.region_size = rs) (hqz : r0.quiet_zone = 0)
    (hmat : r0.matrix.length = n) (hcols : ∀ row ∈ r0.matrix, row.length = n)
    (hreg1 : 1 ≤ regions) (hrs1 : 1 ≤ rs) (hn : n = regions * rs) :
    (add_border r0 0).width = n + 2 + (regions - 1) * 2 ∧
    (add_border r0 0).height = n + 2 + (regions - 1) * 2 ∧
    (add_border r0 0).matrix.length = n + 2 + (regions - 1) * 2 ∧
    (∀ row ∈ (add_border r0 0).matrix, row.length = n + 2 + (regions - 1) * 2) ∧
    (handle_cells (add_border r0 0).regions (add_border r0 0).region_size
        (add_border r0 0).quiet_zone).all (cell_in_range (add_border r0 0).matrix) = true := by
  have hwidth : (add_border r0 0).width = n + 2 + (regions - 1) * 2 := by
    rw [add_border_width, hw, hqz, hreg]
  have hheight : (add_border r0 0).height = n + 2 + (regions - 1) * 2 := by
    rw [add_border_height, hh, hqz, hreg]
  have hM : (add_border r0 0).matrix =
      List.replicate 1 (List.replicate (n + 2 + (regions - 1) * 2) 0)
        ++ border_body r0.matrix 0 regions rs 0 0 (n + 2 + (regions - 1) * 2)
        ++ List.replicate 1 (List.replicate (n + 2 + (regions - 1) * 2) 0) := by
    rw [add_border_matrix]
    rw [hwidth, hreg, hrs, hqz]
  have hrowslen : ∀ row ∈ r0.matrix, row.length = regions * rs := by
    intro row hr
    rw [hcols row hr, hn]
  have hMlen : (add_border r0 0).matrix.length = n + 2 + (regions - 1) * 2 := by
    rw [hM]
    simp only [List.length_append, List.length_replicate]
    rw [border_body_length r0.matrix regions rs 0 0 (n + 2 + (regions - 1) * 2) 0,
      hmat, hn, count_gap_rows regions rs hrs1]
    omega
  have hMrows : ∀ row ∈ (add_border r0 0).matrix, row.length = n + 2 + (regions - 1) * 2 := by
    intro row hr
    rw [hM] at hr
    rcases List.mem_append.mp hr with hr | hr
    · rcases List.mem_append.mp hr with hr | hr
      · rw [List.eq_of_mem_replicate hr]
        exact List.length_replicate ..
      · rcases border_body_row_length r0.matrix regions rs 0 0 (n + 2 + (regions - 1) * 2)
            hreg1 (fun q hq => (hrowslen q hq).ge) 0 row hr with h | h
        · exact h
        · rw [h]
          omega
    · rw [List.eq_of_mem_replicate hr]
      exact List.length_replicate ..
  have hall : (handle_cells regions rs 0).all (cell_in_range (add_border r0 0).matrix) = true := by
    rw [List.all_eq_true]
    intro p hp
    have hb := handle_cells_bounds regions rs 0 p hp
    have hmul : regions * (rs + 2) = regions * rs + regions * 2 := Nat.mul_add ..
    have h1 : p.1 < n + 2 + (regions - 1) * 2 ∧ p.2 < n + 2 + (regions - 1) * 2 := by
      omega
    have hlenrow : (rowAt (add_border r0 0).matrix p.2).length = n + 2 + (regions - 1) * 2 := by
      apply hMrows
      apply rowAt_mem
      rw [hMlen]
      exact h1.2
    rw [cell_in_range]
    simp only [hMlen, hlenrow, Bool.and_eq_true, decide_eq_true_eq]
    exact ⟨h1.2, h1.1⟩
  refine ⟨hwidth, hheight, hMlen, hMrows, ?_⟩
  rw [add_border_regions, add_border_region_size, add_border_quiet_zone, hreg, hrs, hqz]
  exact hall

/-- Claim C1: for every non-empty square grid whose side length `n` is evenly
divided by `regions ≥ 1`, construction succeeds and the renderer's `width`
and `height` fields, the transformed matrix's row count, and every row's
length all equal `n + 2*gap + 2*quiet_zone + (regions-1)*2*gap` with
`gap = 1`, `quiet_zone = 0`, i.e. `n + 2 + (regions-1)*2`. -/
theorem C1_construction_dimensions (m : Grid) (n regions : Nat)
    (hn : 1 ≤ n) (hreg : 1 ≤ regions) (hdvd : regions ∣ n)
    (hrows : m.length = n) (hcols : ∀ row ∈ m, row.length = n) :
    ∃ r, init m regions = .ok r ∧
      r.width = n + 2 + (regions - 1) * 2 ∧
      r.height = n + 2 + (regions - 1) * 2 ∧
      r.matrix.length = n + 2 + (regions - 1) * 2 ∧
      ∀ row ∈ r.matrix, row.length = n + 2 + (regions - 1) * 2 := by
  obtain ⟨rs, hrs_eq⟩ := hdvd
  have hrs1 : 1 ≤ rs := by
    rcases Nat.eq_zero_or_pos rs with rfl | h
    · rw [Nat.mul_zero] at hrs_eq
      omega
    · exact h
  have hdiv : n / regions = rs := by
    rw [hrs_eq, Nat.mul_div_cancel_left rs (by omega : 0 < regions)]
  cases m with
  | nil =>
      rw [List.length_nil] at hrows
      omega
  | cons row0 rest =>
      have hlen : (row0 :: rest).length = n := hrows
      have hrow0 : row0.length = n := hcols row0 (List.mem_cons_self row0 rest)
      have hdiv' : (row0 :: rest).length / regions = rs := by rw [hlen, hdiv]
      obtain ⟨hw1, hh1, hl1, hr1, hall⟩ :=
        add_border_spec
          { width := (row0 :: rest).length, height := row0.length, regions := regions,
            region_size := (row0 :: rest).length / regions, quiet_zone := 0,
            matrix := row0 :: rest } n regions rs hlen hrow0 rfl hdiv' rfl hlen hcols
          hreg hrs1 hrs_eq
      refine ⟨add_handles (add_border
        { width := (row0 :: rest).length, height := row0.length, regions := regions,
          region_size := (row0 :: rest).length / regions, quiet_zone := 0,
          matrix := row0 :: rest } 0), ?_, ?_, ?_, ?_, ?_⟩
      · simp only [init]
        rw [if_neg (by omega : ¬regions = 0)]
        rw [if_neg (fun hcon => absurd (hdiv'.symm.trans hcon.1) (by omega))]
        simp only [add_border_regions, add_border_region_size, add_border_quiet_zone] at hall ⊢
        rw [if_pos hall]
      · rw [add_handles, write_all_width]
        exact hw1
      · rw [add_handles, write_all_height]
        exact hh1
      · rw [add_handles, length_write_all]
        exact hl1
      · rw [add_handles]
        exact write_all_forall_row_length _ _ _ hr1

end DataMatrixRenderer

namespace DataMatrixRenderer

theorem border_row_cells (row : List Nat) (regions rs qz c : Nat) (v : Nat)
    (hv : v ∈ border_row row regions rs qz c) : v = c ∨ v ∈ row := by
  rw [border_row] at hv
  rcases List.mem_append.mp hv with hv | hv
  · rcases List.mem_append.mp hv with hv | hv
    · exact Or.inl (List.eq_of_mem_replicate hv)
    · obtain ⟨piece, hpiece, hv⟩ := List.mem_flatten.mp hv
      obtain ⟨i, hi, rfl⟩ := List.mem_map.mp hpiece
      rcases List.mem_append.mp hv with hv | hv
      · by_cases h0 : 0 < i
        · rw [if_pos h0] at hv
          exact Or.inl (List.eq_of_mem_replicate hv)
        · rw [if_neg h0] at hv
          simp at hv
      · exact Or.inr (List.drop_subset _ _ (List.take_subset _ _ hv))
  · exact Or.inl (List.eq_of_mem_replicate hv)

theorem border_body_cells (rows : Grid) (regions rs qz c W : Nat) (v : Nat) :
    ∀ row_n, ∀ row ∈ border_body rows row_n regions rs qz c W, v ∈ row →
      v = c ∨ v ∈ rows.flatten := by
  induction rows with
  | nil =>
      intro row_n row hrow hv
      simp [border_body] at hrow
  | cons first rest ih =>
      intro row_n row hrow hv
      rw [border_body] at hrow
      rcases List.mem_append.mp hrow with hrow | hrow
      · by_cases h0 : 0 < row_n ∧ row_n % rs = 0
        · rw [if_pos h0] at hrow
          rw [List.eq_of_mem_replicate hrow] at hv
          exact Or.inl (List.eq_of_mem_replicate hv)
        · rw [if_neg h0] at hrow
          simp at hrow
      · rcases List.mem_cons.mp hrow with rfl | hrow
        · rcases border_row_cells first regions rs qz c v hv with h | h
          · exact Or.inl h
          · exact Or.inr (by rw [List.flatten_cons]; exact List.mem_append_left _ h)
        · rcases ih (row_n + 1) row hrow hv with h | h
          · exact Or.inl h
          · exact Or.inr (by rw [List.flatten_cons]; exact List.mem_append_right _ h)

/-- Amended claim C2: the border transform as invoked by the constructor
(`add_border(colour=0)`) inserts only cells of value 0 (white): every cell
of the bordered matrix either comes from the original matrix or is 0.  The
frame, seams and margin only acquire value 1 later, where `add_handles`
stamps them. -/
theorem C2_amended_border_inserts_zero (r : DataMatrixRenderer) (v : Nat)
    (hv : v ∈ (add_border r 0).matrix.flatten) :
    v = 0 ∨ v ∈ r.matrix.flatten := by
  obtain ⟨row, hrow, hv⟩ := List.mem_flatten.mp hv
  rw [add_border_matrix] at hrow
  rcases List.mem_append.mp hrow with hrow | hrow
  · rcases List.mem_append.mp hrow with hrow | hrow
    · rw [List.eq_of_mem_replicate hrow] at hv
      exact Or.inl (List.eq_of_mem_replicate hv)
    · exact border_body_cells r.matrix r.regions r.region_size r.quiet_zone 0
        (add_border r 0).width v 0 row hrow hv
  · rw [List.eq_of_mem_replicate hrow] at hv
    exact Or.inl (List.eq_of_mem_replicate hv)

/-- Counterexample to claim C2 as stated: in the 10 by 10, `regions = 2`
scenario the whole of row 0 is inserted by the border transform, yet its
cell at column 12 holds 0 (white) after construction, not 1. -/
theorem C2_counterexample_inserted_cell_zero :
    ex10.matrix.length = 14 ∧ (rowAt ex10.matrix 0).length = 14 ∧
    cellAt ex10.matrix 12 0 = 0 := by decide

/-- Counterexample to claim C3 as stated: with the 10 by 10 all-zero matrix
and `regions = 3` (which does not divide 10) construction does not fail —
no error of any kind is raised. -/
theorem C3_counterexample_no_failure : (init zeros10 3).isOk = true := by decide

theorem count_gap_rows_ge (regions rs n : Nat) (hrs : 1 ≤ rs) (hle : regions * rs ≤ n) :
    regions - 1 ≤
      (List.range' 0 n).countP (fun k => decide (0 < k) && decide (k % rs = 0)) := by
  have hsplit : List.range' 0 n
      = List.range' 0 (regions * rs) ++ List.range' (regions * rs) (n - regions * rs) := by
    have h := List.range'_append_1 0 (regions * rs) (n - regions * rs)
    rw [Nat.zero_add] at h
    have h2 : n - regions * rs + regions * rs = n := by omega
    rw [h2] at h
    exact h.symm
  rw [hsplit, List.countP_append, count_gap_rows regions rs hrs]
  omega

/-- With `region_size ≥ 1` and `regions * region_size ≤ n`, every handle
cell of every region lies inside the bordered matrix of a square grid —
whether or not `regions` divides `n`: content rows all have length exactly
`regions*region_size + 2*regions`, cap and gap rows are at least as long,
and at least `regions - 1` vertical seams are inserted. -/
theorem add_border_handles_in_range (r0 : DataMatrixRenderer) (n regions rs : Nat)
    (hw : r0.width = n)
    (hreg0 : r0.regions = regions) (hrs0 : r0.region_size = rs) (hqz : r0.quiet_zone = 0)
    (hmat : r0.matrix.length = n) (hcols : ∀ row ∈ r0.matrix, row.length = n)
    (hreg1 : 1 ≤ regions) (hrs1 : 1 ≤ rs) (hle : regions * rs ≤ n) :
    (handle_cells (add_border r0 0).regions (add_border r0 0).region_size
        (add_border r0 0).quiet_zone).all (cell_in_range (add_border r0 0).matrix) = true := by
  have hwidth : (add_border r0 0).width = n + 2 + (regions - 1) * 2 := by
    rw [add_border_width, hw, hqz, hreg0]
  have hM : (add_border r0 0).matrix =
      List.replicate 1 (List.replicate (n + 2 + (regions - 1) * 2) 0)
        ++ border_body r0.matrix 0 regions rs 0 0 (n + 2 + (regions - 1) * 2)
        ++ List.replicate 1 (List.replicate (n + 2 + (regions - 1) * 2) 0) := by
    rw [add_border_matrix]
    rw [hwidth, hreg0, hrs0, hqz]
  have hrowsle : ∀ row ∈ r0.matrix, regions * rs ≤ row.length := by
    intro row hr
    rw [hcols row hr]
    exact hle
  have hMlen_ge : regions * rs + 2 * regions ≤ (add_border r0 0).matrix.length := by
    rw [hM]
    simp only [List.length_append, List.length_replicate]
    rw [border_body_length r0.matrix regions rs 0 0 (n + 2 + (regions - 1) * 2) 0, hmat]
    have hcnt := count_gap_rows_ge regions rs n hrs1 hle
    omega
  have hMrows_ge : ∀ row ∈ (add_border r0 0).matrix,
      regions * rs + 2 * regions ≤ row.length := by
    intro row hr
    rw [hM] at hr
    rcases List.mem_append.mp hr with hr | hr
    · rcases List.mem_append.mp hr with hr | hr
      · rw [List.eq_of_mem_replicate hr, List.length_replicate]
        omega
      · rcases border_body_row_length r0.matrix regions rs 0 0 (n + 2 + (regions - 1) * 2)
            hreg1 hrowsle 0 row hr with h | h
        · rw [h]
          omega
        · rw [h]
          omega
    · rw [List.eq_of_mem_replicate hr, List.length_replicate]
      omega
  rw [add_border_regions, add_border_region_size, add_border_quiet_zone, hreg0, hrs0, hqz]
  rw [List.all_eq_true]
  intro p hp
  have hb := handle_cells_bounds regions rs 0 p hp
  have hmul : regions * (rs + 2) = regions * rs + regions * 2 := Nat.mul_add ..
  have h1 : p.1 < regions * rs + 2 * regions ∧ p.2 < regions * rs + 2 * regions := by
    omega
  have hmem : p.2 < (add_border r0 0).matrix.length := by omega
  have hlenrow : regions * rs + 2 * regions ≤ (rowAt (add_border r0 0).matrix p.2).length :=
    hMrows_ge _ (rowAt_mem _ _ hmem)
  rw [cell_in_range]
  simp only [Bool.and_eq_true, decide_eq_true_eq]
  exact ⟨hmem, by omega⟩

/-- Construction never fails on a non-empty square grid when
`1 ≤ regions ≤ n` — in particular when `regions` does not divide `n`. -/
theorem init_ok_of_regions_le (m : Grid) (n regions : Nat)
    (hn : 1 ≤ n) (hreg : 1 ≤ regions) (hle : regions ≤ n)
    (hrows : m.length = n) (hcols : ∀ row ∈ m, row.length = n) :
    (init m regions).isOk = true := by
  have hreg0 : ¬regions = 0 := by omega
  have hrs1 : 1 ≤ n / regions := (Nat.one_le_div_iff (by omega)).mpr hle
  have hmulle : regions * (n / regions) ≤ n := by
    rw [Nat.mul_comm]
    exact Nat.div_mul_le_self n regions
  cases m with
  | nil =>
      rw [List.length_nil] at hrows
      omega
  | cons row0 rest =>
      have hlen : (row0 :: rest).length = n := hrows
      have hdiv' : (row0 :: rest).length / regions = n / regions := by rw [hlen]
      have hall := add_border_handles_in_range
        { width := (row0 :: rest).length, height := row0.length, regions := regions,
          region_size := (row0 :: rest).length / regions, quiet_zone := 0,
          matrix := row0 :: rest } n regions (n / regions)
        hlen rfl hdiv' rfl hlen hcols hreg hrs1 hmulle
      simp only [init]
      rw [if_neg hreg0]
      rw [if_neg (fun hcon => absurd (hdiv'.symm.trans hcon.1) (by omega))]
      simp only [add_border_regions, add_border_region_size, add_border_quiet_zone] at hall ⊢
      rw [if_pos hall]
      rfl

/-- When `regions` exceeds the row count `n` (so `region_size = 0`) and the
grid has at least two rows, `add_border` evaluates `row_n % 0` and raises
ZeroDivisionError. -/
theorem init_zero_region_size (m : Grid) (n regions : Nat)
    (h2 : 2 ≤ n) (hlt : n < regions) (hrows : m.length = n) :
    init m regions = .error .zeroDivision := by
  cases m with
  | nil =>
      rw [List.length_nil] at hrows
      omega
  | cons row0 rest =>
      simp only [init]
      rw [if_neg (by omega : ¬regions = 0)]
      have hcond : (row0 :: rest).length / regions = 0 ∧ 2 ≤ (row0 :: rest).length := by
        rw [hrows]
        exact ⟨Nat.div_eq_of_lt hlt, h2⟩
      rw [if_pos hcond]

/-- Amended claim C3: no `InvalidLayout` error exists and no layout
validation is performed; the only failures are Python arithmetic errors.
`regions = 0` fails with a ZeroDivisionError (raised at `width//regions`,
before any transformed content exists).  For a non-empty square `n` by `n`
grid and any `1 ≤ regions ≤ n` — in particular whenever `regions` does not
evenly divide `n` — construction never fails: it silently completes, and in
the 10 by 10, `regions = 3` case leaves the recorded width (16) inconsistent
with the actual content-row length (15).  When `regions > n` (so
`region_size = 0`) and the grid has at least two rows, `add_border`'s
`row_n % region_size` raises ZeroDivisionError — again not `InvalidLayout`. -/
theorem C3_amended_no_layout_validation :
    (∀ m : Grid, m ≠ [] → init m 0 = .error .zeroDivision) ∧
    (∀ (m : Grid) (n regions : Nat), 1 ≤ n → 1 ≤ regions → regions ≤ n →
      m.length = n → (∀ row ∈ m, row.length = n) → (init m regions).isOk = true) ∧
    (∀ (m : Grid) (n regions : Nat), 2 ≤ n → n < regions → m.length = n →
      init m regions = .error .zeroDivision) ∧
    ((init zeros10 3).isOk = true ∧ ex3.width = 16 ∧ (rowAt ex3.matrix 1).length = 15) := by
  refine ⟨?_, init_ok_of_regions_le, init_zero_region_size, by decide, by decide, by decide⟩
  intro m hm
  cases m with
  | nil => exact absurd rfl hm
  | cons row0 rest =>
      simp only [init, if_true]

theorem optMap_eq_some_map (f : α → Option β) (g : α → β) (l : List α)
    (h : ∀ a ∈ l, f a = some (g a)) : optMap f l = some (l.map g) := by
  induction l with
  | nil => rfl
  | cons a l ih =>
      simp only [optMap, h a (List.mem_cons_self a l),
        ih (fun b hb => h b (List.mem_cons_of_mem a hb)), List.map_cons]

theorem optMap_eq_none (f : α → Option β) (l : List α) (a : α)
    (ha : a ∈ l) (hf : f a = none) : optMap f l = none := by
  induction l with
  | nil => simp at ha
  | cons b l ih =>
      rcases List.mem_cons.mp ha with rfl | ha
      · cases hX : optMap f l <;> simp only [optMap, hf, hX]
      · cases hfb : f b <;> simp only [optMap, hfb, ih ha]

theorem flatten_map_nil (l : List α) :
    (l.map (fun _ => ([] : List β))).flatten = [] := by
  induction l with
  | nil => rfl
  | cons a l ih => simp [ih]

theorem get_buffer_eq_spec (r : DataMatrixRenderer) (cellsize : Nat)
    (h : cells01 r.matrix) :
    get_buffer r cellsize = some (buffer_spec r.matrix cellsize) := by
  rw [get_buffer, buffer_spec]
  rw [optMap_eq_some_map _
    (fun row => (List.replicate cellsize
      ((row.map (fun v => List.replicate cellsize (byte_of v))).flatten)).flatten) _ ?_]
  · rfl
  · intro row hrow
    have hrow' : row ∈ r.matrix := List.mem_reverse.mp hrow
    rw [optMap_eq_some_map _ (fun v => List.replicate cellsize (byte_of v)) _ ?_]
    · rfl
    · intro v hv
      rcases h v (List.mem_flatten.mpr ⟨row, hrow', hv⟩) with rfl | rfl <;>
        simp [pixel, byte_of]

theorem get_ascii_eq_spec (r : DataMatrixRenderer) (h : cells01 r.matrix) :
    get_ascii r =
      some (pyJoin ['\n'] (r.matrix.map (fun row => (row.map symbolT).flatten)) ++ ['\n']) := by
  rw [get_ascii]
  rw [optMap_eq_some_map _ (fun row => (row.map symbolT).flatten) _ ?_]
  · rfl
  · intro row hrow
    rw [optMap_eq_some_map _ symbolT _ ?_]
    · rfl
    · intro v hv
      rcases h v (List.mem_flatten.mpr ⟨row, hrow, hv⟩) with rfl | rfl <;>
        simp [symbol, symbolT]

theorem buffer_block_length (row : List Nat) (cellsize : Nat) :
    ((List.replicate cellsize
      ((row.map (fun v => List.replicate cellsize (byte_of v))).flatten)).flatten).length
      = cellsize * (row.length * cellsize) := by
  rw [List.length_flatten, List.map_replicate, List.sum_replicate, smul_eq_mul]
  congr 1
  rw [List.length_flatten, List.map_map]
  have hconst : row.map (List.length ∘ fun v => List.replicate cellsize (byte_of v))
      = row.map (fun _ => cellsize) := by
    apply List.map_congr_left
    intro v _
    simp
  rw [hconst, List.map_const', List.sum_replicate, smul_eq_mul]

/-- Claim C4: on a rectangular binary grid, `get_buffer` succeeds and returns
exactly the buffer described by the spec (`buffer_spec`: rows bottom-first,
`cellsize`-fold vertical and horizontal replication), whose length is
`width*cellSize * height*cellSize` and whose bytes are all 0xff or 0x00. -/
theorem C4_buffer_spec_correct (r : DataMatrixRenderer) (cellsize W : Nat)
    (hW : ∀ row ∈ r.matrix, row.length = W) (h01 : cells01 r.matrix) :
    get_buffer r cellsize = some (buffer_spec r.matrix cellsize) ∧
    (buffer_spec r.matrix cellsize).length = (W * cellsize) * (r.matrix.length * cellsize) ∧
    (∀ b ∈ buffer_spec r.matrix cellsize, b = 255 ∨ b = 0) := by
  refine ⟨get_buffer_eq_spec r cellsize h01, ?_, ?_⟩
  · rw [buffer_spec, List.length_flatten, List.map_map]
    have hblocks : r.matrix.reverse.map (List.length ∘ fun row =>
        (List.replicate cellsize
          ((row.map (fun v => List.replicate cellsize (byte_of v))).flatten)).flatten)
        = r.matrix.reverse.map (fun _ => cellsize * (W * cellsize)) := by
      apply List.map_congr_left
      intro row hrow
      have hlen : row.length = W := hW row (List.mem_reverse.mp hrow)
      simp only [Function.comp_apply]
      rw [buffer_block_length, hlen]
    rw [hblocks, List.map_const', List.sum_replicate, smul_eq_mul, List.length_reverse]
    ring
  · intro b hb
    rw [buffer_spec] at hb
    obtain ⟨block, hblock, hb⟩ := List.mem_flatten.mp hb
    obtain ⟨row, hrow, rfl⟩ := List.mem_map.mp hblock
    obtain ⟨rowbuf, hrowbuf, hb⟩ := List.mem_flatten.mp hb
    have hrowbuf' : rowbuf = (row.map (fun v => List.replicate cellsize (byte_of v))).flatten :=
      List.eq_of_mem_replicate hrowbuf
    rw [hrowbuf'] at hb
    obtain ⟨cellbuf, hcellbuf, hb⟩ := List.mem_flatten.mp hb
    obtain ⟨v, hv, rfl⟩ := List.mem_map.mp hcellbuf
    rw [List.eq_of_mem_replicate hb, byte_of]
    by_cases h0 : v = 0 <;> simp [h0]

/-- Counterexample to claim C9 as stated: with `cellSize = 0` (≤ 0) the
raster encoder silently returns an empty buffer and the vector encoder still
returns a document — no `InvalidParameter` failure exists. -/
theorem C9_counterexample_cellsize_zero :
    get_buffer ex1 0 = some [] ∧ (get_dxf ex1 0 false ['m', 'm']).length ≠ 0 := by decide

/-- Amended claim C9: `cellSize ≤ 0` is not validated anywhere.  For
`cellSize = 0` (the only non-positive value of the `Nat`-modelled cell size;
negative Python values behave identically, every repetition being empty)
`get_buffer` returns an empty buffer and `get_dxf` still returns a non-empty
document, rather than failing with `InvalidParameter`. -/
theorem C9_amended_no_cellsize_validation (r : DataMatrixRenderer)
    (inverse : Bool) (units : List Char) (h : cells01 r.matrix) :
    get_buffer r 0 = some [] ∧ get_dxf r 0 inverse units ≠ [] := by
  constructor
  · rw [get_buffer]
    rw [optMap_eq_some_map _ (fun _ => ([] : List Nat)) _ ?_]
    · simp [flatten_map_nil]
    · intro row hrow
      rw [optMap_eq_some_map _ (fun _ => ([] : List Nat)) _ ?_]
      · rfl
      · intro v hv
        rcases h v (List.mem_flatten.mpr ⟨row, List.mem_reverse.mp hrow, hv⟩) with rfl | rfl <;>
          simp [pixel]
  · have hpos : 0 < (get_dxf r 0 inverse units).length := by
      rw [get_dxf]
      simp only [List.length_append]
      have hA : 0 < ("0\nSECTION\n2\nHEADER\n9\n$ACADVER\n1\nAC1006\n9\n$INSUNITS\n70\n").toList.length := by
        decide
      omega
    exact List.length_pos.mp hpos

/-- Claim C10: the per-cell helpers `pixel` and `symbol` are total exactly on
the binary domain: on binary grids `get_buffer` and `get_ascii` always
succeed, while any grid containing a cell outside 0/1 reaches the undefined
fall-through branch and both encoders fail. -/
theorem C10_cell_mapping_totality :
    (∀ v : Nat, ¬(v = 0 ∨ v = 1) → pixel v = none ∧ symbol v = none) ∧
    (∀ (r : DataMatrixRenderer) (cellsize : Nat), cells01 r.matrix →
      (get_buffer r cellsize).isSome = true ∧ (get_ascii r).isSome = true) ∧
    (∀ (r : DataMatrixRenderer) (cellsize : Nat),
      (∃ v ∈ r.matrix.flatten, ¬(v = 0 ∨ v = 1)) →
      get_buffer r cellsize = none ∧ get_ascii r = none) := by
  refine ⟨?_, ?_, ?_⟩
  · intro v hv
    have h0 : ¬ v = 0 := fun h => hv (Or.inl h)
    have h1 : ¬ v = 1 := fun h => hv (Or.inr h)
    rw [pixel, symbol, if_neg h0, if_neg h0, if_neg h1, if_neg h1]
    exact ⟨rfl, rfl⟩
  · intro r cellsize h
    rw [get_buffer_eq_spec r cellsize h, get_ascii_eq_spec r h]
    exact ⟨rfl, rfl⟩
  · intro r cellsize hbad
    obtain ⟨v, hv, hv01⟩ := hbad
    obtain ⟨row, hrow, hvrow⟩ := List.mem_flatten.mp hv
    have hpix : pixel v = none := by
      have h0 : ¬ v = 0 := fun h => hv01 (Or.inl h)
      have h1 : ¬ v = 1 := fun h => hv01 (Or.inr h)
      rw [pixel, if_neg h0, if_neg h1]
    have hsym : symbol v = none := by
      have h0 : ¬ v = 0 := fun h => hv01 (Or.inl h)
      have h1 : ¬ v = 1 := fun h => hv01 (Or.inr h)
      rw [symbol, if_neg h0, if_neg h1]
    constructor
    · rw [get_buffer]
      rw [optMap_eq_none _ _ row (List.mem_reverse.mpr hrow) ?_]
      · rfl
      · rw [optMap_eq_none _ _ v hvrow (by rw [hpix]; rfl)]
        rfl
    · rw [get_ascii]
      rw [optMap_eq_none _ _ row hrow ?_]
      · rfl
      · rw [optMap_eq_none _ _ v hvrow hsym]
        rfl

theorem parsePairs_symbolT (row : List Nat) (h : ∀ v ∈ row, v = 0 ∨ v = 1) :
    parsePairs ((row.map symbolT).flatten) = some row := by
  induction row with
  | nil => rfl
  | cons v rest ih =>
      have ih' := ih (fun w hw => h w (List.mem_cons_of_mem _ hw))
      rcases h v (List.mem_cons_self v rest) with rfl | rfl <;>
        simp [symbolT, parsePairs, ih']

theorem no_newline_in_rendered_row (row : List Nat) :
    '\n' ∉ (row.map symbolT).flatten := by
  intro h
  obtain ⟨l, hl, hc⟩ := List.mem_flatten.mp h
  obtain ⟨v, hv, rfl⟩ := List.mem_map.mp hl
  by_cases h0 : v = 0 <;> simp [symbolT, h0] at hc

theorem splitOnNl_append (xs rest : List Char) (h : '\n' ∉ xs) :
    splitOnNl (xs ++ '\n' :: rest) = xs :: splitOnNl rest := by
  induction xs with
  | nil => simp [splitOnNl]
  | cons c cs ih =>
      simp only [List.mem_cons, not_or] at h
      obtain ⟨h1, h2⟩ := h
      rw [List.cons_append]
      simp only [splitOnNl, ih h2]
      rw [if_neg (fun hc => h1 hc.symm)]
      simp

theorem splitOnNl_pyJoin (ls : List (List Char)) (hne : ls ≠ [])
    (h : ∀ l ∈ ls, '\n' ∉ l) :
    splitOnNl (pyJoin ['\n'] ls ++ ['\n']) = ls ++ [[]] := by
  induction ls with
  | nil => exact absurd rfl hne
  | cons a t ih =>
      cases t with
      | nil =>
          show splitOnNl (a ++ '\n' :: []) = [a, []]
          rw [splitOnNl_append a [] (h a (List.mem_cons_self a []))]
          rfl
      | cons b t2 =>
          show splitOnNl ((a ++ ('\n' :: pyJoin ['\n'] (b :: t2))) ++ ['\n']) = _
          rw [List.append_assoc, List.cons_append]
          rw [splitOnNl_append a _ (h a (List.mem_cons_self a (b :: t2)))]
          rw [ih (List.cons_ne_nil b t2) (fun l hl => h l (List.mem_cons_of_mem a hl))]
          rfl

theorem optMap_parse_rows (m : Grid) (h : cells01 m) :
    optMap parsePairs (m.map (fun row => (row.map symbolT).flatten)) = some m := by
  induction m with
  | nil => rfl
  | cons row rest ih =>
      have hrow : ∀ v ∈ row, v = 0 ∨ v = 1 := fun v hv =>
        h v (by rw [List.flatten_cons]; exact List.mem_append_left _ hv)
      have hrest : cells01 rest := fun v hv =>
        h v (by rw [List.flatten_cons]; exact List.mem_append_right _ hv)
      simp only [List.map_cons, optMap, parsePairs_symbolT row hrow, ih hrest]

/-- Amended claim C5: for every non-empty binary grid, `get_ascii` renders
each cell as two characters, joins rows with newlines and appends a trailing
newline, and splitting the text back into lines and parsing character pairs
reconstructs the grid exactly; the 10 by 10 `regions = 2` scenario yields 14
lines of 28 characters whose `XX` pairs are exactly the 1-cells.  (The
empty-grid case excluded by the amendment is refuted separately.) -/
theorem C5_amended_ascii_roundtrip :
    (∀ r : DataMatrixRenderer, r.matrix ≠ [] → cells01 r.matrix →
      ∃ t, get_ascii r = some t ∧ parseAscii t = some r.matrix) ∧
    ((get_ascii ex10).isSome = true ∧
      (splitOnNl ((get_ascii ex10).getD [])).dropLast.length = 14 ∧
      ((splitOnNl ((get_ascii ex10).getD [])).dropLast.all (fun l => l.length == 28)) = true ∧
      parseAscii ((get_ascii ex10).getD []) = some ex10.matrix) := by
  constructor
  · intro r hne h01
    refine ⟨_, get_ascii_eq_spec r h01, ?_⟩
    rw [parseAscii]
    rw [splitOnNl_pyJoin _ (by simpa using hne)
      (fun l hl => by
        obtain ⟨row, hrow, rfl⟩ := List.mem_map.mp hl
        exact no_newline_in_rendered_row row)]
    rw [List.dropLast_concat]
    exact optMap_parse_rows r.matrix h01
  · refine ⟨by decide, by decide, by decide, by decide⟩

/-- Counterexample to claim C5 as stated: the empty grid and the grid with
one empty row render to the same text, so no parser can reconstruct both
grids exactly — the universal round-trip over all binary grids is false. -/
theorem C5_counterexample_ascii_not_injective :
    get_ascii rNil = get_ascii rOneEmpty ∧ rNil.matrix ≠ rOneEmpty.matrix := by decide

theorem digitChar_mem (d : Nat) :
    digitChar d ∈ ['0', '1', '2', '3', '4', '5', '6', '7', '8', '9'] := by
  rw [digitChar]
  rcases Nat.lt_or_ge d 10 with h | h
  · rw [List.getD_eq_getElem _ _ (by simpa using h)]
    exact List.getElem_mem _
  · rw [List.getD_eq_default _ _ (by simpa using h)]
    decide

theorem digitChar_ne_L (d : Nat) : ¬ digitChar d = 'L' := by
  intro h
  have hmem := digitChar_mem d
  rw [h] at hmem
  revert hmem
  decide

theorem count_L_natCharsAux (fuel n : Nat) : (natCharsAux fuel n).count 'L' = 0 := by
  induction fuel generalizing n with
  | zero => rfl
  | succ fuel ih =>
      rw [natCharsAux]
      by_cases h : n < 10
      · rw [if_pos h]
        simp [List.count_cons, digitChar_ne_L n]
      · rw [if_neg h, List.count_append, ih]
        simp [List.count_cons, digitChar_ne_L (n % 10)]

theorem count_L_natChars (n : Nat) : (natChars n).count 'L' = 0 :=
  count_L_natCharsAux ..

theorem count_L_intChars (i : Int) : (intChars i).count 'L' = 0 := by
  rw [intChars]
  split <;> simp [List.count_cons, count_L_natChars]

theorem count_L_coord (x y : Int) (c : Nat) : (coord x y c).count 'L' = 0 := by
  rw [coord]
  simp [List.count_append, List.count_cons, count_L_natChars, count_L_intChars]

theorem count_L_solid (cellsize x y : Int) : (solid cellsize x y).count 'L' = 1 := by
  rw [solid]
  simp only [List.count_append, count_L_coord]
  decide

theorem count_L_dxf_row (row : List Nat) (ypos cellsize : Int) (inverse : Bool) :
    ∀ x, (dxf_row row x ypos cellsize inverse).count 'L' =
      row.countP (fun v => (v != 0) != inverse) := by
  induction row with
  | nil => intro x; rfl
  | cons v rest ih =>
      intro x
      rw [dxf_row, List.count_append, ih (x + 1), List.countP_cons]
      cases hb : ((v != 0) != inverse) <;>
        (simp [hb, count_L_solid, List.count_nil]; try omega)

theorem count_L_dxf_rows (rows : Grid) (height : Nat) (cellsize : Int) (inverse : Bool) :
    ∀ y, (dxf_rows rows y height cellsize inverse).count 'L' =
      rows.flatten.countP (fun v => (v != 0) != inverse) := by
  induction rows with
  | nil => intro y; rfl
  | cons row rest ih =>
      intro y
      rw [dxf_rows, List.count_append, count_L_dxf_row, ih (y + 1),
        List.flatten_cons, List.countP_append]

theorem count_L_get_dxf (r : DataMatrixRenderer) (cellsize : Int) (inverse : Bool)
    (units : List Char) :
    (get_dxf r cellsize inverse units).count 'L' =
      r.matrix.flatten.countP (fun v => (v != 0) != inverse) := by
  rw [get_dxf]
  simp only [List.count_append, count_L_dxf_rows]
  have h1 : (("0\nSECTION\n2\nHEADER\n9\n$ACADVER\n1\nAC1006\n9\n$INSUNITS\n70\n").toList).count 'L' = 0 := by
    decide
  have h2 : ((if units = ['m', 'm'] then ['4', '\n'] else ['0', '\n']) : List Char).count 'L' = 0 := by
    split <;> decide
  have h3 : (("0\nENDSEC\n0\nSECTION\n2\nENTITIES\n").toList).count 'L' = 0 := by decide
  have h4 : (("0\nENDSEC\n0\nEOF\n").toList).count 'L' = 0 := by decide
  rw [h1, h2, h3, h4]
  omega

/-- Claim C6: every SOLID entity keyword contributes the only letter L in the
document, so the entity count of `get_dxf` equals the number of cells whose
boolean value XOR `inverse` is foreground; over the two values of `inverse`
the two entity sets are complementary — their counts add up to the total
number of cells. -/
theorem C6_dxf_entity_count (r : DataMatrixRenderer) (cellsize : Int)
    (inverse : Bool) (units : List Char) :
    (get_dxf r cellsize inverse units).count 'L' =
      r.matrix.flatten.countP (fun v => (v != 0) != inverse) ∧
    (get_dxf r cellsize true units).count 'L' + (get_dxf r cellsize false units).count 'L' =
      r.matrix.flatten.length := by
  refine ⟨count_L_get_dxf .., ?_⟩
  rw [count_L_get_dxf, count_L_get_dxf]
  have hsplit :=
    List.length_eq_countP_add_countP (fun v => (v != 0) != false) r.matrix.flatten
  have hneg : r.matrix.flatten.countP (fun v => decide ¬(((v != 0) != false) = true)) =
      r.matrix.flatten.countP (fun v => (v != 0) != true) := by
    apply List.countP_congr
    intro v _
    cases hv : (v != 0) <;> simp [hv]
  omega

theorem infix_append_left (l m n : List α) (h : l.IsInfix m) : l.IsInfix (n ++ m) := by
  obtain ⟨s, t, rfl⟩ := h
  exact ⟨n ++ s, t, by simp⟩

theorem infix_append_right (l m n : List α) (h : l.IsInfix m) : l.IsInfix (m ++ n) := by
  obtain ⟨s, t, rfl⟩ := h
  exact ⟨s, t ++ n, by simp⟩

theorem dxf_row_infix (ypos cellsize : Int) (inv : Bool) (row : List Nat) :
    ∀ (x0 x v : Nat), row[x]? = some v → ((v != 0) != inv) = true →
      (solid cellsize (((x0 + x : Nat) : Int) * cellsize) ypos).IsInfix
        (dxf_row row x0 ypos cellsize inv) := by
  induction row with
  | nil =>
      intro x0 x v hx hv
      simp at hx
  | cons w rest ih =>
      intro x0 x v hx hv
      cases x with
      | zero =>
          rw [List.getElem?_cons_zero] at hx
          obtain rfl : w = v := Option.some.inj hx
          rw [dxf_row, if_pos hv]
          have hco : ((x0 + 0 : Nat) : Int) = (x0 : Int) := by simp
          rw [hco]
          exact ⟨[], _, rfl⟩
      | succ x' =>
          rw [List.getElem?_cons_succ] at hx
          have hih := ih (x0 + 1) x' v hx hv
          have hco : x0 + 1 + x' = x0 + (x' + 1) := by omega
          rw [hco] at hih
          rw [dxf_row]
          exact infix_append_left _ _ _ hih

theorem dxf_rows_infix (height : Nat) (cellsize : Int) (inv : Bool) (rows : Grid) :
    ∀ (y0 y : Nat) (row : List Nat), rows[y]? = some row →
      ∀ (x v : Nat), row[x]? = some v → ((v != 0) != inv) = true →
      (solid cellsize ((x : Int) * cellsize)
          (((height : Int) - ((y0 + y : Nat) : Int)) * cellsize)).IsInfix
        (dxf_rows rows y0 height cellsize inv) := by
  induction rows with
  | nil =>
      intro y0 y row hy
      simp at hy
  | cons first rest ih =>
      intro y0 y row hy x v hx hv
      cases y with
      | zero =>
          rw [List.getElem?_cons_zero] at hy
          obtain rfl : first = row := Option.some.inj hy
          rw [dxf_rows]
          have h1 := dxf_row_infix (((height : Int) - ((y0 : Nat) : Int)) * cellsize)
            cellsize inv first 0 x v hx hv
          have hco : ((0 + x : Nat) : Int) = (x : Int) := by simp
          rw [hco] at h1
          have hco2 : ((y0 + 0 : Nat) : Int) = ((y0 : Nat) : Int) := by simp
          rw [hco2]
          exact infix_append_right _ _ _ h1
      | succ y' =>
          rw [List.getElem?_cons_succ] at hy
          have hih := ih (y0 + 1) y' row hy x v hx hv
          have hco : y0 + 1 + y' = y0 + (y' + 1) := by omega
          rw [hco] at hih
          rw [dxf_rows]
          exact infix_append_left _ _ _ hih

theorem solid_layout (cs X Y : Int) :
    solid cs X Y =
      ("0\nSOLID\n8\nbarcode\n10\n").toList ++ intChars X ++ ("\n20\n").toList ++ intChars Y
        ++ ("\n30\n0\n11\n").toList ++ intChars (X + cs) ++ ("\n21\n").toList ++ intChars Y
        ++ ("\n31\n0\n12\n").toList ++ intChars X ++ ("\n22\n").toList ++ intChars (Y - cs)
        ++ ("\n32\n0\n13\n").toList ++ intChars (X + cs) ++ ("\n23\n").toList
        ++ intChars (Y - cs) ++ ("\n33\n0\n").toList := by
  have h1 : ("0\nSOLID\n8\nbarcode\n10\n").toList
      = ("0\nSOLID\n8\nbarcode\n").toList ++ natChars 10 ++ ['\n'] := by decide
  have h2 : ("\n20\n").toList = '\n' :: natChars 20 ++ ['\n'] := by decide
  have h3 : ("\n30\n0\n11\n").toList
      = '\n' :: natChars 30 ++ '\n' :: '0' :: '\n' :: natChars 11 ++ ['\n'] := by decide
  have h4 : ("\n21\n").toList = '\n' :: natChars 21 ++ ['\n'] := by decide
  have h5 : ("\n31\n0\n12\n").toList
      = '\n' :: natChars 31 ++ '\n' :: '0' :: '\n' :: natChars 12 ++ ['\n'] := by decide
  have h6 : ("\n22\n").toList = '\n' :: natChars 22 ++ ['\n'] := by decide
  have h7 : ("\n32\n0\n13\n").toList
      = '\n' :: natChars 32 ++ '\n' :: '0' :: '\n' :: natChars 13 ++ ['\n'] := by decide
  have h8 : ("\n23\n").toList = '\n' :: natChars 23 ++ ['\n'] := by decide
  have h9 : ("\n33\n0\n").toList = '\n' :: natChars 33 ++ '\n' :: '0' :: ['\n'] := by decide
  rw [solid, coord, coord, coord, coord, h1, h2, h3, h4, h5, h6, h7, h8, h9]
  simp [List.append_assoc, List.cons_append, List.singleton_append, List.nil_append]

/-- Claim C7: every post-inverse foreground cell `(x, y)` contributes a SOLID
entity on layer barcode positioned at `solid(cellsize, x*cellsize,
(height-y)*cellsize)` appearing verbatim in the output; the entity's text
lists corners `(X, Y)`, `(X+cs, Y)`, `(X, Y-cs)`, `(X+cs, Y-cs)` under group
codes 10/20, 11/21, 12/22, 13/23; the header unit code is 4 exactly for
`units = "mm"` and 0 otherwise; and the 1 by 1 single-cell scenario with
`cellsize = 10` produces exactly the expected document. -/
theorem C7_dxf_solid_format :
    (∀ (r : DataMatrixRenderer) (cellsize : Int) (inverse : Bool) (units : List Char)
        (y x v : Nat) (row : List Nat),
      r.matrix[y]? = some row → row[x]? = some v → ((v != 0) != inverse) = true →
      (solid cellsize ((x : Int) * cellsize)
          (((r.height : Int) - (y : Int)) * cellsize)).IsInfix
        (get_dxf r cellsize inverse units)) ∧
    (∀ (cs X Y : Int),
      solid cs X Y =
        ("0\nSOLID\n8\nbarcode\n10\n").toList ++ intChars X ++ ("\n20\n").toList ++ intChars Y
          ++ ("\n30\n0\n11\n").toList ++ intChars (X + cs) ++ ("\n21\n").toList ++ intChars Y
          ++ ("\n31\n0\n12\n").toList ++ intChars X ++ ("\n22\n").toList ++ intChars (Y - cs)
          ++ ("\n32\n0\n13\n").toList ++ intChars (X + cs) ++ ("\n23\n").toList
          ++ intChars (Y - cs) ++ ("\n33\n0\n").toList) ∧
    (∀ (r : DataMatrixRenderer) (cellsize : Int) (inverse : Bool) (units : List Char),
      ∃ rest, get_dxf r cellsize inverse units =
        ("0\nSECTION\n2\nHEADER\n9\n$ACADVER\n1\nAC1006\n9\n$INSUNITS\n70\n").toList
          ++ ((if units = ['m', 'm'] then ['4', '\n'] else ['0', '\n']) ++ rest)) ∧
    get_dxf ex1 10 false ['m', 'm'] =
      ("0\nSECTION\n2\nHEADER\n9\n$ACADVER\n1\nAC1006\n9\n$INSUNITS\n70\n4\n"
        ++ "0\nENDSEC\n0\nSECTION\n2\nENTITIES\n"
        ++ "0\nSOLID\n8\nbarcode\n"
        ++ "10\n0\n20\n10\n30\n0\n"
        ++ "11\n10\n21\n10\n31\n0\n"
        ++ "12\n0\n22\n0\n32\n0\n"
        ++ "13\n10\n23\n0\n33\n0\n"
        ++ "0\nENDSEC\n0\nEOF\n").toList := by
  refine ⟨?_, solid_layout, ?_, by decide⟩
  · intro r cellsize inverse units y x v row hy hx hv
    have h1 := dxf_rows_infix r.height cellsize inverse r.matrix 0 y row hy x v hx hv
    have hco : ((0 + y : Nat) : Int) = (y : Int) := by simp
    rw [hco] at h1
    rw [get_dxf]
    exact infix_append_right _ _ _ (infix_append_left _ _ _ h1)
  · intro r cellsize inverse units
    refine ⟨("0\nENDSEC\n0\nSECTION\n2\nENTITIES\n").toList
      ++ (dxf_rows r.matrix 0 r.height cellsize inverse ++ ("0\nENDSEC\n0\nEOF\n").toList), ?_⟩
    rw [get_dxf]
    simp [List.append_assoc]

/-- Witness instantiating `C1_construction_dimensions` at the 10 by 10,
`regions = 2` scenario (dimensions 14). -/
theorem C1_construction_dimensions_witness :
    ((1 ≤ 10 ∧ 1 ≤ 2 ∧ (2 : Nat) ∣ 10) ∧ zeros10.length = 10 ∧
      (∀ row ∈ zeros10, row.length = 10)) ∧
    (∃ r, init zeros10 2 = .ok r ∧
      r.width = 10 + 2 + (2 - 1) * 2 ∧
      r.height = 10 + 2 + (2 - 1) * 2 ∧
      r.matrix.length = 10 + 2 + (2 - 1) * 2 ∧
      ∀ row ∈ r.matrix, row.length = 10 + 2 + (2 - 1) * 2) :=
  ⟨⟨⟨by decide, by decide, by decide⟩, by decide, by decide⟩,
    C1_construction_dimensions zeros10 10 2 (by decide) (by decide) (by decide)
      (by decide) (by decide)⟩

/-- Witness instantiating `C2_amended_border_inserts_zero` at a concrete
bordered cell. -/
theorem C2_amended_border_inserts_zero_witness :
    (0 ∈ (add_border rNil 0).matrix.flatten) ∧
    ((0 : Nat) = 0 ∨ 0 ∈ rNil.matrix.flatten) :=
  ⟨by decide, C2_amended_border_inserts_zero rNil 0 (by decide)⟩

/-- Witness instantiating the three universal parts of
`C3_amended_no_layout_validation` at concrete grids: a non-empty grid with
`regions = 0`, the square 10 by 10 grid with the non-dividing `regions = 3`,
and a 2 by 2 grid with `regions = 3 > 2`. -/
theorem C3_amended_no_layout_validation_witness :
    (([[0]] : Grid) ≠ [] ∧ init [[0]] 0 = .error .zeroDivision) ∧
    ((1 ≤ 10 ∧ 1 ≤ 3 ∧ 3 ≤ 10 ∧ zeros10.length = 10 ∧ ∀ row ∈ zeros10, row.length = 10) ∧
      (init zeros10 3).isOk = true) ∧
    ((2 ≤ 2 ∧ 2 < 3 ∧ ([[0, 0], [0, 0]] : Grid).length = 2) ∧
      init [[0, 0], [0, 0]] 3 = .error .zeroDivision) :=
  ⟨⟨by decide, C3_amended_no_layout_validation.1 [[0]] (by decide)⟩,
    ⟨⟨by decide, by decide, by decide, by decide, by decide⟩,
      C3_amended_no_layout_validation.2.1 zeros10 10 3 (by decide) (by decide) (by decide)
        (by decide) (by decide)⟩,
    ⟨⟨by decide, by decide, by decide⟩,
      C3_amended_no_layout_validation.2.2.1 [[0, 0], [0, 0]] 2 3 (by decide) (by decide)
        (by decide)⟩⟩

/-- Witness instantiating `C4_buffer_spec_correct` at the constructed 14 by
14 scenario grid with `cellsize = 1`. -/
theorem C4_buffer_spec_correct_witness :
    ((∀ row ∈ ex10.matrix, row.length = 14) ∧ cells01 ex10.matrix) ∧
    (get_buffer ex10 1 = some (buffer_spec ex10.matrix 1) ∧
      (buffer_spec ex10.matrix 1).length = (14 * 1) * (ex10.matrix.length * 1) ∧
      (∀ b ∈ buffer_spec ex10.matrix 1, b = 255 ∨ b = 0)) :=
  ⟨⟨by decide, by decide⟩, C4_buffer_spec_correct ex10 1 14 (by decide) (by decide)⟩

/-- Witness instantiating the round-trip part of
`C5_amended_ascii_roundtrip` at the constructed scenario grid. -/
theorem C5_amended_ascii_roundtrip_witness :
    (ex10.matrix ≠ [] ∧ cells01 ex10.matrix) ∧
    (∃ t, get_ascii ex10 = some t ∧ parseAscii t = some ex10.matrix) :=
  ⟨⟨by decide, by decide⟩, C5_amended_ascii_roundtrip.1 ex10 (by decide) (by decide)⟩

/-- Witness instantiating the entity-infix part of `C7_dxf_solid_format` at
the 1 by 1 scenario. -/
theorem C7_dxf_solid_format_witness :
    (ex1.matrix[0]? = some [1] ∧ ([1] : List Nat)[0]? = some 1 ∧
      ((((1 : Nat) != 0) != false) = true)) ∧
    (solid 10 (((0 : Nat) : Int) * 10)
        (((ex1.height : Int) - ((0 : Nat) : Int)) * 10)).IsInfix
      (get_dxf ex1 10 false ['m', 'm']) :=
  ⟨⟨by decide, by decide, by decide⟩,
    C7_dxf_solid_format.1 ex1 10 false ['m', 'm'] 0 0 1 [1]
      (by decide) (by decide) (by decide)⟩

/-- Witness instantiating `C9_amended_no_cellsize_validation` at the 1 by 1
grid. -/
theorem C9_amended_no_cellsize_validation_witness :
    cells01 ex1.matrix ∧
    (get_buffer ex1 0 = some [] ∧ get_dxf ex1 0 false ['m', 'm'] ≠ []) :=
  ⟨by decide, C9_amended_no_cellsize_validation ex1 false ['m', 'm'] (by decide)⟩

/-- Witness instantiating all three parts of `C10_cell_mapping_totality` at
concrete inputs: the out-of-domain value 2, a binary grid, and a grid
containing a 2. -/
theorem C10_cell_mapping_totality_witness :
    (¬((2 : Nat) = 0 ∨ (2 : Nat) = 1) ∧ cells01 ex1.matrix ∧
      (∃ v ∈ rBad.matrix.flatten, ¬(v = 0 ∨ v = 1))) ∧
    ((pixel 2 = none ∧ symbol 2 = none) ∧
      ((get_buffer ex1 3).isSome = true ∧ (get_ascii ex1).isSome = true) ∧
      (get_buffer rBad 3 = none ∧ get_ascii rBad = none)) :=
  ⟨⟨by decide, by decide, by decide⟩,
    ⟨C10_cell_mapping_totality.1 2 (by decide),
      C10_cell_mapping_totality.2.1 ex1 3 (by decide),
      C10_cell_mapping_totality.2.2 rBad 3 (by decide)⟩⟩

end DataMatrixRenderer
